import Mathlib

/-!
Shallow embedding of `CComputeRenderPass`
(src/Code/CryEngine/RenderDll/XRenderD3D9/GraphicsPipeline/Common/ComputeRenderPass.cpp)
and the slice of the device layer it relies on
(src/Code/CryEngine/RenderDll/XRenderD3D9/DeviceManager/DeviceObjects.inl).

The pass's private state becomes an explicit `PassState` record; the abstract
device factory (resource-set `Update`, `CreateResourceLayout`,
`CreateComputePSO`) becomes a `DeviceEnv` record of outcomes, and every
interaction with the device/command-list is recorded in an explicit trace so
that "which backend calls were issued" is a provable property.

The class declaration `ComputeRenderPass.h` is not part of the sources; the
dirty-flag enumerators, pass flags and `IsDirty` are modelled from the spec
where so marked.
-/

namespace ComputeRenderPass

/-- Modelled from the spec: the dirty-flag enumerators of
`CComputeRenderPass::EDirtyFlags` are declared in the missing header
`ComputeRenderPass.h`.  Per spec §3 the mask is a bitset over
{Resources, Technique, ResourceLayout}, `None` is the empty mask and `All`
implies every other bit; concrete disjoint bit positions are chosen here. -/
def eDirty_ResourceLayout : Nat := 1

/-- Dirty bit: the bound resources changed (see `eDirty_ResourceLayout`). -/
def eDirty_Resources : Nat := 2

/-- Dirty bit: the shader technique changed (see `eDirty_ResourceLayout`). -/
def eDirty_Technique : Nat := 4

/-- The empty dirty mask. -/
def eDirty_None : Nat := 0

/-- The full dirty mask: every dirty bit set. -/
def eDirty_All : Nat := eDirty_ResourceLayout ||| eDirty_Resources ||| eDirty_Technique

/-- Modelled from the spec: pass flag `eFlags_ReflectConstantBuffersFromShader`
from the missing header; the only pass flag the translated code consults. -/
def eFlags_ReflectConstantBuffersFromShader : Nat := 1

/-- Modelled from the spec: the `eResourceDestroyed` invalidation-flag bit
(declared with the device layer, not in the sources).  The callback contract
(spec §4.1) keys "stop notifying" on this flag. -/
def eResourceDestroyed : Nat := 1

/-- One inline constant buffer as exposed by the constant manager's
`GetBuffers()`: backing buffer, shader slot and stage mask. -/
structure SConstantBuffer where
  pBuffer : Nat
  shaderSlot : Nat
  shaderStages : Nat
deriving DecidableEq, Repr

/-- A compiled pipeline-state object: identity plus the `IsValid()` /
`GetUpdateCount()` observations the pass makes on it. -/
structure PSO where
  id : Nat
  valid : Bool
  updateCount : Nat
deriving DecidableEq, Repr

/-- One slot of `SDeviceResourceLayoutDesc` as assembled by `Compile`:
either the resource-set slot (`SetResourceSet`) or an inline
constant-buffer slot (`SetConstantBuffer`). -/
inductive LayoutSlot where
  | resourceSet (bindSlot : Nat)
  | constantBuffer (bindSlot : Nat) (shaderSlot : Nat) (shaderStages : Nat)
deriving DecidableEq, Repr

/-- Calls `Compile` makes into the device object factory / resource set. -/
inductive DeviceCall where
  | updateResourceSet (dirtyFlagsFilter : Nat)
  | createResourceLayout (desc : List LayoutSlot)
  | createComputePSO (layout : Option Nat) (shader : Option Nat) (rtMask : Nat)
deriving DecidableEq, Repr

/-- Commands issued on the backend command list by `PrepareResourcesForUse`
and `Dispatch`. -/
inductive BackendCmd where
  | prepareResourceSet (bindSlot : Nat) (set : Option Nat)
  | prepareInlineConstantBuffer (bindSlot : Nat) (buffer : Nat) (shaderSlot : Nat)
  | setResourceLayout (layout : Option Nat)
  | setPipelineState (pso : Option Nat)
  | setResources (bindSlot : Nat) (set : Option Nat)
  | setInlineConstantBuffer (bindSlot : Nat) (buffer : Nat) (shaderSlot : Nat)
  | dispatch (x y z : Nat)
deriving DecidableEq, Repr

/-- The private state of one `CComputeRenderPass`.  Device objects are
`Option` handles (`none` = null); the resource-set handle carries an abstract
content version so that in-place `Update` is observable.  The constant
manager is represented by its observable buffer list (`GetBuffers()`). -/
structure PassState where
  m_flags : Nat
  m_dirtyMask : Nat
  m_bResourcesInvalidated : Bool
  m_pShader : Option Nat
  m_techniqueName : Option Nat
  m_rtMask : Nat
  m_dispatchSizeX : Nat
  m_dispatchSizeY : Nat
  m_dispatchSizeZ : Nat
  m_currentPsoUpdateCount : Nat
  m_bPendingConstantUpdate : Bool
  m_bCompiled : Bool
  m_inputVars : List Nat
  m_pResourceSet : Option Nat
  m_pResourceLayout : Option Nat
  m_pPipelineState : Option PSO
  m_constantBuffers : List SConstantBuffer
deriving DecidableEq, Repr

/-- The constructor `CComputeRenderPass::CComputeRenderPass(EPassFlags)`:
dirty mask `All`, dispatch sizes 1, a fresh resource set from the factory,
no compiled layout/PSO. -/
def init (flags : Nat) : PassState where
  m_flags := flags
  m_dirtyMask := eDirty_All
  m_bResourcesInvalidated := false
  m_pShader := none
  m_techniqueName := none
  m_rtMask := 0
  m_dispatchSizeX := 1
  m_dispatchSizeY := 1
  m_dispatchSizeZ := 1
  m_currentPsoUpdateCount := 0
  m_bPendingConstantUpdate := false
  m_bCompiled := false
  m_inputVars := [0, 0, 0, 0]
  m_pResourceSet := some 0
  m_pResourceLayout := none
  m_pPipelineState := none
  m_constantBuffers := []

/-- Outcomes of the abstract device layer for one compilation attempt:
the result of `m_pResourceSet->Update(..)`, of `CreateResourceLayout`,
of `CreateComputePSO`, and the constant buffers the shader-reflection
provider yields. -/
structure DeviceEnv where
  updateSucceeds : Bool
  updatedSetContent : Nat
  layoutResult : Option Nat
  psoResult : Option PSO
  reflectedBuffers : List SConstantBuffer
deriving DecidableEq, Repr

/-- Result of `CComputeRenderPass::Compile()`: the returned dirty mask
(the C++ function returns it without writing `m_dirtyMask`), the mutated
pass state, and the trace of device calls made. -/
structure CompileResult where
  mask : Nat
  state : PassState
  calls : List DeviceCall
deriving DecidableEq, Repr

/-- The inline constant-buffer tail of the resource-layout description:
`for (auto& cb : m_constantManager.GetBuffers()) resourceLayoutDesc.SetConstantBuffer(bindSlot++, cb.shaderSlot, cb.shaderStages);` -/
def layoutDescCBs : Nat → List SConstantBuffer → List LayoutSlot
  | _, [] => []
  | bindSlot, cb :: rest =>
    LayoutSlot.constantBuffer bindSlot cb.shaderSlot cb.shaderStages :: layoutDescCBs (bindSlot + 1) rest

/-- The resource-layout description `Compile` assembles:
`int bindSlot = 0; resourceLayoutDesc.SetResourceSet(bindSlot++, m_resourceDesc);`
followed by one `SetConstantBuffer` per reflected inline constant buffer. -/
def buildLayoutDesc (bufs : List SConstantBuffer) : List LayoutSlot :=
  LayoutSlot.resourceSet 0 :: layoutDescCBs 1 bufs

/-- The buffer list after
`m_constantManager.ReleaseShaderReflection()` and the optional
`AllocateShaderReflection(...)` (only under
`eFlags_ReflectConstantBuffersFromShader`): the reflection provider's
buffers, or none. -/
def reflectedBufs (env : DeviceEnv) (s : PassState) : List SConstantBuffer :=
  if s.m_flags &&& eFlags_ReflectConstantBuffersFromShader ≠ 0 then
    env.reflectedBuffers
  else
    []

/-- The pipeline-state step of `Compile`, entered after the resource layout
was created non-null and assigned:
`m_pPipelineState = CreateComputePSO(psoDesc); if (!m_pPipelineState || !m_pPipelineState->IsValid()) return dirtyMask;`
then `m_currentPsoUpdateCount = GetUpdateCount()`, mask cleared, compiled set. -/
def compilePso (env : DeviceEnv) (dirtyMask : Nat) (s : PassState)
    (calls : List DeviceCall) : CompileResult :=
  match env.psoResult with
  | none => ⟨dirtyMask, { s with m_pPipelineState := none }, calls⟩
  | some pso =>
    if !pso.valid then
      ⟨dirtyMask, { s with m_pPipelineState := some pso }, calls⟩
    else
      ⟨eDirty_None,
       { s with m_pPipelineState := some pso,
                m_currentPsoUpdateCount := pso.updateCount,
                m_bCompiled := true },
       calls⟩

/-- The `eDirty_Technique | eDirty_ResourceLayout` tail of `Compile`
(shader reflection, resource layout, then pipeline state), entered with the
working dirty mask and the state after the resource-set step.
`m_pResourceLayout` is assigned the creation result before the null check,
exactly as in the source. -/
def compileTechLayout (env : DeviceEnv) (dirtyMask : Nat) (s : PassState)
    (calls : List DeviceCall) : CompileResult :=
  if dirtyMask &&& (eDirty_Technique ||| eDirty_ResourceLayout) ≠ 0 then
    if env.layoutResult = none then
      ⟨dirtyMask,
       { s with m_constantBuffers := reflectedBufs env s, m_pResourceLayout := none },
       calls ++ [DeviceCall.createResourceLayout (buildLayoutDesc (reflectedBufs env s))]⟩
    else
      compilePso env dirtyMask
        { s with m_constantBuffers := reflectedBufs env s,
                 m_pResourceLayout := env.layoutResult }
        ((calls ++ [DeviceCall.createResourceLayout (buildLayoutDesc (reflectedBufs env s))]) ++
          [DeviceCall.createComputePSO env.layoutResult s.m_pShader s.m_rtMask])
  else
    ⟨eDirty_None, { s with m_bCompiled := true }, calls⟩

/-- The working dirty mask `Compile` starts from: `m_dirtyMask` with the
pending asynchronous invalidation folded in as `eDirty_Resources`. -/
def entryMask (s : PassState) : Nat :=
  s.m_dirtyMask ||| (if s.m_bResourcesInvalidated then eDirty_Resources else eDirty_None)

/-- The state mutations on entry to `Compile`:
`m_bResourcesInvalidated = false; m_bCompiled = false;` -/
def compileEntry (s : PassState) : PassState :=
  { s with m_bResourcesInvalidated := false, m_bCompiled := false }

/-- Translation of `CComputeRenderPass::Compile()`.  Follows the source line by line:
fold the asynchronous invalidation flag into the working mask
(`entryMask`), clear that flag and `m_bCompiled` (`compileEntry`), then run
the resource-set step and the technique/layout steps, returning the
unchanged working mask at the first failure. -/
def Compile (env : DeviceEnv) (s : PassState) : CompileResult :=
  if entryMask s &&& eDirty_Resources ≠ 0 then
    if env.updateSucceeds then
      -- Update realizes the queued description into the existing set object
      compileTechLayout env (entryMask s)
        { compileEntry s with
            m_pResourceSet := (compileEntry s).m_pResourceSet.map fun _ => env.updatedSetContent }
        [DeviceCall.updateResourceSet (entryMask s &&& (eDirty_Resources ||| eDirty_ResourceLayout))]
    else
      ⟨entryMask s, compileEntry s,
       [DeviceCall.updateResourceSet (entryMask s &&& (eDirty_Resources ||| eDirty_ResourceLayout))]⟩
  else
    compileTechLayout env (entryMask s) (compileEntry s) []

/-- The call pattern `m_dirtyMask = Compile();` used by `BeginConstantUpdate`
and `PrepareResourcesForUse`. -/
def CompileCall (env : DeviceEnv) (s : PassState) : PassState :=
  let r := Compile env s
  { r.state with m_dirtyMask := r.mask }

/-- Modelled from the spec: `IsDirty()` is declared in the missing header
`ComputeRenderPass.h`; per spec §4.2 the pass state `Compiled` is exactly
"dirty mask = None", so the pass is dirty when the mask is non-None. -/
def IsDirty (s : PassState) : Bool :=
  s.m_dirtyMask != eDirty_None

/-- Translation of `CComputeRenderPass::BeginConstantUpdate()`: only when the pass reflects
constant buffers from the shader, re-compile if dirty, then set the
pending-constant-update flag and open the named-constant write region. -/
def BeginConstantUpdate (env : DeviceEnv) (s : PassState) : PassState :=
  if s.m_flags &&& eFlags_ReflectConstantBuffersFromShader ≠ 0 then
    let s := if IsDirty s then CompileCall env s else s
    { s with m_bPendingConstantUpdate := true }
  else
    s

/-- The prepare-call sequence
`for (auto& cb : inlineConstantBuffers) pComputeInterface->PrepareInlineConstantBufferForUse(bindSlot++, ...)`. -/
def prepareCBs : Nat → List SConstantBuffer → List BackendCmd
  | _, [] => []
  | bindSlot, cb :: rest =>
    BackendCmd.prepareInlineConstantBuffer bindSlot cb.pBuffer cb.shaderSlot ::
      prepareCBs (bindSlot + 1) rest

/-- The bind-call sequence
`for (auto& cb : inlineConstantBuffers) pComputeInterface->SetInlineConstantBuffer(bindSlot++, ...)`. -/
def setCBs : Nat → List SConstantBuffer → List BackendCmd
  | _, [] => []
  | bindSlot, cb :: rest =>
    BackendCmd.setInlineConstantBuffer bindSlot cb.pBuffer cb.shaderSlot ::
      setCBs (bindSlot + 1) rest

/-- Result of `PrepareResourcesForUse`: the mutated pass state, the backend
commands issued, and whether the body invoked `Compile()`. -/
structure PrepareResult where
  state : PassState
  cmds : List BackendCmd
  ranCompile : Bool
deriving DecidableEq, Repr

/-- The branch head of `PrepareResourcesForUse`: close a pending constant
update if one is open (`EndNamedConstantUpdate`, clear the flag), else
re-compile if dirty (`m_dirtyMask = Compile()`), else leave the state
alone.  The second component records whether `Compile()` ran. -/
def prepareStep (env : DeviceEnv) (s : PassState) : PassState × Bool :=
  if s.m_bPendingConstantUpdate then
    ({ s with m_bPendingConstantUpdate := false }, false)
  else if IsDirty s then
    (CompileCall env s, true)
  else
    (s, false)

/-- Translation of `CComputeRenderPass::PrepareResourcesForUse(commandList)`: run the
branch head, then, only when the dirty mask is `eDirty_None`, prepare the
resource set at bind slot 0 followed by each inline constant buffer at
incrementing slots. -/
def PrepareResourcesForUse (env : DeviceEnv) (s : PassState) : PrepareResult :=
  if (prepareStep env s).1.m_dirtyMask = eDirty_None then
    ⟨(prepareStep env s).1,
     BackendCmd.prepareResourceSet 0 (prepareStep env s).1.m_pResourceSet ::
       prepareCBs 1 (prepareStep env s).1.m_constantBuffers,
     (prepareStep env s).2⟩
  else
    ⟨(prepareStep env s).1, [], (prepareStep env s).2⟩

/-- Translation of `CComputeRenderPass::Dispatch(commandList, srvUsage)`: when the dirty
mask is `eDirty_None`, bind layout, pipeline state, resources and inline
constant buffers, then issue one dispatch with the configured dimensions;
otherwise do nothing.  The body writes no member, so the state component is
the input state. -/
def Dispatch (s : PassState) : PassState × List BackendCmd :=
  if s.m_dirtyMask = eDirty_None then
    (s, BackendCmd.setResourceLayout s.m_pResourceLayout ::
        BackendCmd.setPipelineState (s.m_pPipelineState.map PSO.id) ::
        BackendCmd.setResources 0 s.m_pResourceSet ::
        (setCBs 1 s.m_constantBuffers ++
          [BackendCmd.dispatch s.m_dispatchSizeX s.m_dispatchSizeY s.m_dispatchSizeZ]))
  else
    (s, [])

/-- Translation of `CComputeRenderPass::Execute(commandList, srvUsage)`: when the render
pass scheduler is active, hand the pass to it (no commands recorded here);
otherwise `BeginRenderPass` → `Dispatch` → `EndRenderPass` (the begin/end
brackets record only profiling and touch none of the modelled state). -/
def Execute (schedulerActive : Bool) (s : PassState) : PassState × List BackendCmd :=
  if schedulerActive then
    (s, [])
  else
    Dispatch s

/-- Translation of `CComputeRenderPass::OnResourceInvalidated(pThis, flags)`:
`m_dirtyMask |= eDirty_Resources; return !(flags & eResourceDestroyed);` -/
def OnResourceInvalidated (s : PassState) (flags : Nat) : PassState × Bool :=
  ({ s with m_dirtyMask := s.m_dirtyMask ||| eDirty_Resources },
   flags &&& eResourceDestroyed == 0)

/-- Translation of `CComputeRenderPass::Reset()`: dirty mask back to `All`, flags and
bindings cleared, both pending flags raised, dispatch sizes zeroed, and all
compiled artifacts released. -/
def Reset (_s : PassState) : PassState where
  m_flags := 0
  m_dirtyMask := eDirty_All
  m_bResourcesInvalidated := true
  m_pShader := none
  m_techniqueName := none
  m_rtMask := 0
  m_dispatchSizeX := 0
  m_dispatchSizeY := 0
  m_dispatchSizeZ := 0
  m_currentPsoUpdateCount := 0
  m_bPendingConstantUpdate := true
  m_bCompiled := false
  m_inputVars := [0, 0, 0, 0]
  m_pResourceSet := none
  m_pResourceLayout := none
  m_pPipelineState := none
  m_constantBuffers := []

/-- One operation of a pass's lifetime, for the temporal dirty-mask claims.
`mutate` is modelled from the spec: the pass's `Set*` mutators live in the
missing header and, per spec §4.2, OR the corresponding dirty bits (a subset
of `eDirty_All`) into the mask.  `setDispatchSize` is likewise modelled from
the spec (dispatch dimensions are configuration, not dirty-tracked). -/
inductive Op where
  | mutate (delta : Nat)
  | setDispatchSize (x y z : Nat)
  | invalidate (flags : Nat)
  | reset
  | beginConstantUpdate (env : DeviceEnv)
  | prepare (env : DeviceEnv)
  | dispatch
  | execute (schedulerActive : Bool)
deriving DecidableEq, Repr

/-- The state effect of one lifetime operation. -/
def step (op : Op) (s : PassState) : PassState :=
  match op with
  | Op.mutate delta => { s with m_dirtyMask := s.m_dirtyMask ||| (delta &&& eDirty_All) }
  | Op.setDispatchSize x y z =>
    { s with m_dispatchSizeX := x, m_dispatchSizeY := y, m_dispatchSizeZ := z }
  | Op.invalidate flags => (OnResourceInvalidated s flags).1
  | Op.reset => Reset s
  | Op.beginConstantUpdate env => BeginConstantUpdate env s
  | Op.prepare env => (PrepareResourcesForUse env s).state
  | Op.dispatch => (Dispatch s).1
  | Op.execute schedulerActive => (Execute schedulerActive s).1

/-- Running a sequence of lifetime operations. -/
def run (ops : List Op) (s : PassState) : PassState :=
  match ops with
  | [] => s
  | op :: rest => run rest (step op s)

/-- Well-formedness of a dirty mask: only the bits of `eDirty_All` are set. -/
def maskWF (s : PassState) : Prop :=
  s.m_dirtyMask &&& eDirty_All = s.m_dirtyMask

instance (s : PassState) : Decidable (maskWF s) := by
  unfold maskWF; infer_instance

/-- Reachability invariant: a pending asynchronous invalidation always
coexists with the `eDirty_Resources` bit already set in the mask (the only
source writer of `m_bResourcesInvalidated := true` is `Reset`, which also
sets the mask to `All`). -/
def invInvalidated (s : PassState) : Prop :=
  s.m_bResourcesInvalidated = true → s.m_dirtyMask &&& eDirty_Resources = eDirty_Resources

instance (s : PassState) : Decidable (invInvalidated s) := by
  unfold invInvalidated; infer_instance

/-- The successful-PSO observation `m_pPipelineState && m_pPipelineState->IsValid()`. -/
def psoOk (env : DeviceEnv) : Prop :=
  match env.psoResult with
  | none => False
  | some pso => pso.valid = true

instance (env : DeviceEnv) : Decidable (psoOk env) := by
  unfold psoOk; cases env.psoResult <;> infer_instance

/-- Recognizer for backend dispatch commands, to count them in a trace. -/
def isDispatchCmd : BackendCmd → Bool
  | BackendCmd.dispatch _ _ _ => true
  | _ => false

/-! ### Bitmask helper lemmas -/

theorem and_or_self_left (m d : Nat) : m &&& (m ||| d) = m := by
  apply Nat.eq_of_testBit_eq
  intro i
  simp only [Nat.testBit_and, Nat.testBit_or]
  cases m.testBit i <;> simp

theorem or_and_self_right (m d : Nat) : (m ||| d) &&& d = d := by
  apply Nat.eq_of_testBit_eq
  intro i
  simp only [Nat.testBit_and, Nat.testBit_or]
  cases d.testBit i <;> simp

theorem or_eq_left_of_and_eq {m d : Nat} (h : m &&& d = d) : m ||| d = m := by
  apply Nat.eq_of_testBit_eq
  intro i
  have h1 : (m &&& d).testBit i = d.testBit i := by rw [h]
  simp only [Nat.testBit_and] at h1
  simp only [Nat.testBit_or]
  cases hd : d.testBit i
  · simp
  · rw [hd] at h1
    simp only [Bool.and_true] at h1
    simp [h1]

theorem and_eq_of_or_and_eq {m d c : Nat} (h : m &&& c = c) : (m ||| d) &&& c = c := by
  apply Nat.eq_of_testBit_eq
  intro i
  have h1 : (m &&& c).testBit i = c.testBit i := by rw [h]
  simp only [Nat.testBit_and] at h1
  simp only [Nat.testBit_and, Nat.testBit_or]
  cases hc : c.testBit i
  · simp
  · rw [hc] at h1
    simp only [Bool.and_true] at h1
    simp [h1]

theorem or_and_wf {m d a : Nat} (hm : m &&& a = m) (hd : d &&& a = d) :
    (m ||| d) &&& a = m ||| d := by
  apply Nat.eq_of_testBit_eq
  intro i
  have h1 : (m &&& a).testBit i = m.testBit i := by rw [hm]
  have h2 : (d &&& a).testBit i = d.testBit i := by rw [hd]
  simp only [Nat.testBit_and] at h1 h2
  simp only [Nat.testBit_and, Nat.testBit_or]
  cases ha : a.testBit i
  · rw [ha] at h1 h2
    simp only [Bool.and_false] at h1 h2
    simp [← h1, ← h2]
  · simp

theorem ne_zero_of_and_ne_zero {m d : Nat} (h : m &&& d ≠ 0) : m ≠ 0 := by
  intro h0
  rw [h0] at h
  simp at h

/-! ### Characterization of `Compile` -/

/-- The pipeline-state step: it never touches the invalidation flag, and
either succeeds (mask `None`, compiled true) or returns the working mask
with the compiled flag untouched. -/
theorem compilePso_spec (env : DeviceEnv) (d : Nat) (s : PassState) (calls : List DeviceCall) :
    (compilePso env d s calls).state.m_bResourcesInvalidated = s.m_bResourcesInvalidated ∧
    (((compilePso env d s calls).mask = eDirty_None ∧
        (compilePso env d s calls).state.m_bCompiled = true) ∨
     ((compilePso env d s calls).mask = d ∧
        (compilePso env d s calls).state.m_bCompiled = s.m_bCompiled)) := by
  unfold compilePso
  cases env.psoResult with
  | none => exact ⟨rfl, Or.inr ⟨rfl, rfl⟩⟩
  | some pso => cases hv : pso.valid <;> simp [hv]

/-- The technique/layout tail: it never touches the invalidation flag, and
either succeeds (mask `None`, compiled true) or fails returning the working
mask — in which case the `Technique | ResourceLayout` guard held — with the
compiled flag untouched. -/
theorem compileTechLayout_spec (env : DeviceEnv) (d : Nat) (s : PassState)
    (calls : List DeviceCall) :
    (compileTechLayout env d s calls).state.m_bResourcesInvalidated = s.m_bResourcesInvalidated ∧
    (((compileTechLayout env d s calls).mask = eDirty_None ∧
        (compileTechLayout env d s calls).state.m_bCompiled = true) ∨
     ((compileTechLayout env d s calls).mask = d ∧
        d &&& (eDirty_Technique ||| eDirty_ResourceLayout) ≠ 0 ∧
        (compileTechLayout env d s calls).state.m_bCompiled = s.m_bCompiled)) := by
  unfold compileTechLayout
  split
  · rename_i htl
    split
    · exact ⟨rfl, Or.inr ⟨rfl, htl, rfl⟩⟩
    · have h := compilePso_spec env d
        { s with m_constantBuffers := reflectedBufs env s,
                 m_pResourceLayout := env.layoutResult }
        ((calls ++ [DeviceCall.createResourceLayout (buildLayoutDesc (reflectedBufs env s))]) ++
          [DeviceCall.createComputePSO env.layoutResult s.m_pShader s.m_rtMask])
      refine ⟨h.1, ?_⟩
      rcases h.2 with h2 | h2
      · exact Or.inl h2
      · exact Or.inr ⟨h2.1, htl, h2.2⟩
  · exact ⟨rfl, Or.inl ⟨rfl, rfl⟩⟩

/-- Every run of `Compile` clears the asynchronous invalidation flag, and
either fully succeeds (mask `None`, compiled flag true) or fails returning
the working entry mask, which is then non-`None`, with the compiled flag
false. -/
theorem Compile_spec (env : DeviceEnv) (s : PassState) :
    (Compile env s).state.m_bResourcesInvalidated = false ∧
    (((Compile env s).mask = eDirty_None ∧ (Compile env s).state.m_bCompiled = true) ∨
     ((Compile env s).mask = entryMask s ∧ (Compile env s).mask ≠ eDirty_None ∧
       (Compile env s).state.m_bCompiled = false)) := by
  unfold Compile
  split
  · rename_i hres
    have hne : entryMask s ≠ eDirty_None := by
      intro hc
      rw [hc] at hres
      simp [eDirty_None] at hres
    split
    · have h := compileTechLayout_spec env (entryMask s)
        { compileEntry s with
            m_pResourceSet := (compileEntry s).m_pResourceSet.map fun _ => env.updatedSetContent }
        [DeviceCall.updateResourceSet
          (entryMask s &&& (eDirty_Resources ||| eDirty_ResourceLayout))]
      refine ⟨h.1, ?_⟩
      rcases h.2 with h2 | h2
      · exact Or.inl h2
      · exact Or.inr ⟨h2.1, fun hc => hne (h2.1 ▸ hc), h2.2.2⟩
    · exact ⟨rfl, Or.inr ⟨rfl, hne, rfl⟩⟩
  · have h := compileTechLayout_spec env (entryMask s) (compileEntry s) []
    refine ⟨h.1, ?_⟩
    rcases h.2 with h2 | h2
    · exact Or.inl h2
    · refine Or.inr ⟨h2.1, ?_, h2.2.2⟩
      intro hc
      rw [h2.1] at hc
      rw [hc] at h2
      simp [eDirty_None] at h2

/-! ### Indexing lemmas for the incrementing-bind-slot loops -/

theorem layoutDescCBs_get (bufs : List SConstantBuffer) :
    ∀ k i, (layoutDescCBs k bufs).get? i =
      (bufs.get? i).map
        (fun cb => LayoutSlot.constantBuffer (k + i) cb.shaderSlot cb.shaderStages) := by
  induction bufs with
  | nil => intro k i; simp [layoutDescCBs]
  | cons cb rest ih =>
    intro k i
    cases i with
    | zero => simp [layoutDescCBs]
    | succ j =>
      have h := ih (k + 1) j
      simp only [layoutDescCBs, List.get?]
      rw [h]
      have : k + 1 + j = k + (j + 1) := by omega
      rw [this]

theorem prepareCBs_get (bufs : List SConstantBuffer) :
    ∀ k i, (prepareCBs k bufs).get? i =
      (bufs.get? i).map
        (fun cb => BackendCmd.prepareInlineConstantBuffer (k + i) cb.pBuffer cb.shaderSlot) := by
  induction bufs with
  | nil => intro k i; simp [prepareCBs]
  | cons cb rest ih =>
    intro k i
    cases i with
    | zero => simp [prepareCBs]
    | succ j =>
      have h := ih (k + 1) j
      simp only [prepareCBs, List.get?]
      rw [h]
      have : k + 1 + j = k + (j + 1) := by omega
      rw [this]

theorem setCBs_countP_dispatch (bufs : List SConstantBuffer) :
    ∀ k, (setCBs k bufs).countP isDispatchCmd = 0 := by
  induction bufs with
  | nil => intro k; simp [setCBs]
  | cons cb rest ih =>
    intro k
    simp [setCBs, List.countP_cons, ih (k + 1), isDispatchCmd]

/-! ### Claims -/

/-- C3.  `Dispatch(commandList)` changes no pass state, emits backend
commands if and only if the dirty mask equals `eDirty_None`; when it emits,
it issues exactly one backend dispatch call, carrying the configured
dispatch dimensions; when the mask is non-`None` it performs no backend
call at all. -/
theorem dispatch_emits_iff_clean (s : PassState) :
    (Dispatch s).1 = s ∧
    ((Dispatch s).2 ≠ [] ↔ s.m_dirtyMask = eDirty_None) ∧
    (s.m_dirtyMask = eDirty_None →
      (Dispatch s).2.countP isDispatchCmd = 1 ∧
      BackendCmd.dispatch s.m_dispatchSizeX s.m_dispatchSizeY s.m_dispatchSizeZ ∈
        (Dispatch s).2) ∧
    (s.m_dirtyMask ≠ eDirty_None → (Dispatch s).2 = []) := by
  unfold Dispatch
  by_cases h : s.m_dirtyMask = eDirty_None
  · refine ⟨by simp [h], by simp [h], fun _ => ⟨?_, ?_⟩, fun hc => absurd h hc⟩
    · simp [h, List.countP_cons, List.countP_append, setCBs_countP_dispatch, isDispatchCmd]
    · simp [h, List.mem_append]
  · refine ⟨by simp [h], by simp [h], fun hc => absurd hc h, fun _ => by simp [h]⟩

/-- C3 witness: on a concrete clean pass the theorem yields exactly one
dispatch with the configured dimensions, and on a dirty pass no command. -/
theorem dispatch_emits_iff_clean_witness :
    ({ init 0 with m_dirtyMask := eDirty_None, m_dispatchSizeX := 8 } : PassState).m_dirtyMask
        = eDirty_None ∧
    (Dispatch { init 0 with m_dirtyMask := eDirty_None, m_dispatchSizeX := 8 }).2.countP
        isDispatchCmd = 1 ∧
    BackendCmd.dispatch 8 1 1 ∈
      (Dispatch { init 0 with m_dirtyMask := eDirty_None, m_dispatchSizeX := 8 }).2 := by
  refine ⟨by decide, ?_⟩
  have h := (dispatch_emits_iff_clean
    { init 0 with m_dirtyMask := eDirty_None, m_dispatchSizeX := 8 }).2.2.1 (by decide)
  exact ⟨h.1, h.2⟩

/-- C6.  `Reset()` sets the dirty mask to `eDirty_All`, zeroes all three
dispatch dimensions, and releases the compiled artifacts: resource set,
resource layout and pipeline state all become null. -/
theorem reset_state (s : PassState) :
    (Reset s).m_dirtyMask = eDirty_All ∧
    (Reset s).m_dispatchSizeX = 0 ∧ (Reset s).m_dispatchSizeY = 0 ∧
    (Reset s).m_dispatchSizeZ = 0 ∧
    (Reset s).m_pResourceSet = none ∧ (Reset s).m_pResourceLayout = none ∧
    (Reset s).m_pPipelineState = none :=
  ⟨rfl, rfl, rfl, rfl, rfl, rfl, rfl⟩

/-- C7.  `OnResourceInvalidated` only ORs `eDirty_Resources` into the dirty
mask (so a `None` mask becomes exactly `Resources`, and no other field
changes), and returns false — stop notifying — exactly when the flags
contain the resource-destroyed bit. -/
theorem on_resource_invalidated_spec (s : PassState) (flags : Nat) :
    (OnResourceInvalidated s flags).1 =
      { s with m_dirtyMask := s.m_dirtyMask ||| eDirty_Resources } ∧
    (s.m_dirtyMask = eDirty_None →
      (OnResourceInvalidated s flags).1.m_dirtyMask = eDirty_Resources) ∧
    ((OnResourceInvalidated s flags).2 = false ↔ flags &&& eResourceDestroyed ≠ 0) := by
  refine ⟨rfl, fun h => ?_, ?_⟩
  · show s.m_dirtyMask ||| eDirty_Resources = eDirty_Resources
    rw [h]
    rfl
  · show (flags &&& eResourceDestroyed == 0) = false ↔ flags &&& eResourceDestroyed ≠ 0
    simp

/-- C7 witness: invalidating a clean pass with the destroyed flag set turns
the mask into exactly `Resources` and asks the resource to stop notifying. -/
theorem on_resource_invalidated_spec_witness :
    (OnResourceInvalidated { init 0 with m_dirtyMask := eDirty_None } eResourceDestroyed).1.m_dirtyMask
        = eDirty_Resources ∧
    ((OnResourceInvalidated { init 0 with m_dirtyMask := eDirty_None } eResourceDestroyed).2 = false) := by
  have h := on_resource_invalidated_spec
    { init 0 with m_dirtyMask := eDirty_None } eResourceDestroyed
  exact ⟨h.2.1 (by decide), h.2.2.mpr (by decide)⟩

/-- C9.  Immediately after `Reset()`, the first `PrepareResourcesForUse`
does not attempt `Compile()` and issues no device prepare calls: `Reset`
left the pending-constant-update flag set, so the call only clears that
flag (closing the never-opened constant-update region), and the dirty mask
remains `eDirty_All`. -/
theorem prepare_after_reset_noop (env : DeviceEnv) (s : PassState) :
    (PrepareResourcesForUse env (Reset s)).ranCompile = false ∧
    (PrepareResourcesForUse env (Reset s)).cmds = [] ∧
    (PrepareResourcesForUse env (Reset s)).state =
      { Reset s with m_bPendingConstantUpdate := false } ∧
    (PrepareResourcesForUse env (Reset s)).state.m_dirtyMask = eDirty_All :=
  ⟨rfl, rfl, rfl, rfl⟩

/-- Success form of the technique/layout tail: if the layout is created
non-null and the PSO is created valid whenever the step runs, the tail
clears the mask and sets the compiled flag. -/
theorem compileTechLayout_success (env : DeviceEnv) (d : Nat) (s : PassState)
    (calls : List DeviceCall)
    (h : d &&& (eDirty_Technique ||| eDirty_ResourceLayout) ≠ 0 →
      env.layoutResult ≠ none ∧ psoOk env) :
    (compileTechLayout env d s calls).mask = eDirty_None ∧
    (compileTechLayout env d s calls).state.m_bCompiled = true := by
  unfold compileTechLayout
  by_cases hg : d &&& (eDirty_Technique ||| eDirty_ResourceLayout) ≠ 0
  · rw [if_pos hg]
    obtain ⟨hl, hp⟩ := h hg
    rw [if_neg hl]
    cases hps : env.psoResult with
    | none => unfold psoOk at hp; rw [hps] at hp; exact absurd hp (by simp)
    | some pso =>
      have hv : pso.valid = true := by unfold psoOk at hp; rw [hps] at hp; exact hp
      unfold compilePso
      rw [hps]
      simp [hv]
  · rw [if_neg hg]
    exact ⟨rfl, rfl⟩

/-- C2.  After a `Compile()` call that fails — any failing step, in
particular the resource-set `Update` returning false — the stored dirty
mask (`m_dirtyMask = Compile()`, as at both call sites) is unchanged from
its value before the call, and a subsequent `Dispatch()` issues zero
backend calls.  The hypothesis `invInvalidated s` is the reachability
invariant (established by `invInvalidated_init` and preserved by
`invInvalidated_step`): a pending asynchronous invalidation always already
has the `Resources` bit set in the mask. -/
theorem compile_failure_mask_unchanged (env : DeviceEnv) (s : PassState)
    (hinv : invInvalidated s)
    (hfail : (Compile env s).mask ≠ eDirty_None) :
    (CompileCall env s).m_dirtyMask = s.m_dirtyMask ∧
    (Dispatch (CompileCall env s)).2 = [] := by
  obtain ⟨-, h2⟩ := Compile_spec env s
  rcases h2 with h | h
  · exact absurd h.1 hfail
  · have hmask : (Compile env s).mask = s.m_dirtyMask := by
      rw [h.1]
      unfold entryMask
      cases hb : s.m_bResourcesInvalidated
      · simp [eDirty_None]
      · simp only [if_true]
        exact or_eq_left_of_and_eq (hinv hb)
    have hcc : (CompileCall env s).m_dirtyMask = (Compile env s).mask := rfl
    refine ⟨hcc.trans hmask, ?_⟩
    have hne : ¬ ((CompileCall env s).m_dirtyMask = eDirty_None) := by
      rw [hcc]
      exact hfail
    simp [Dispatch, hne]

/-- C2 witness: a freshly constructed pass whose resource-set `Update`
fails keeps its dirty mask and dispatches nothing. -/
theorem compile_failure_mask_unchanged_witness :
    invInvalidated (init 0) ∧
    (Compile ⟨false, 9, some 1, some ⟨2, true, 3⟩, []⟩ (init 0)).mask ≠ eDirty_None ∧
    (CompileCall ⟨false, 9, some 1, some ⟨2, true, 3⟩, []⟩ (init 0)).m_dirtyMask
        = (init 0).m_dirtyMask ∧
    (Dispatch (CompileCall ⟨false, 9, some 1, some ⟨2, true, 3⟩, []⟩ (init 0))).2 = [] := by
  refine ⟨by decide, by decide, ?_⟩
  exact compile_failure_mask_unchanged ⟨false, 9, some 1, some ⟨2, true, 3⟩, []⟩ (init 0)
    (by decide) (by decide)

/-- C4.  When every step implicated by the working dirty mask succeeds
(resource-set `Update` returns true if the `Resources` bit is set; resource
layout and a valid PSO are created if the `Technique`/`ResourceLayout` bits
are set), `Compile()` returns exactly `eDirty_None` and sets the internal
compiled flag. -/
theorem compile_success_mask_none (env : DeviceEnv) (s : PassState)
    (hres : entryMask s &&& eDirty_Resources ≠ 0 → env.updateSucceeds = true)
    (htl : entryMask s &&& (eDirty_Technique ||| eDirty_ResourceLayout) ≠ 0 →
      env.layoutResult ≠ none ∧ psoOk env) :
    (Compile env s).mask = eDirty_None ∧ (Compile env s).state.m_bCompiled = true := by
  unfold Compile
  by_cases h1 : entryMask s &&& eDirty_Resources ≠ 0
  · rw [if_pos h1]
    simp only [hres h1, if_true]
    exact compileTechLayout_success env (entryMask s) _ _ htl
  · rw [if_neg h1]
    exact compileTechLayout_success env (entryMask s) _ _ htl

/-- C4 witness: a freshly constructed pass compiled against an all-success
device ends with mask `None` and the compiled flag set. -/
theorem compile_success_mask_none_witness :
    (Compile ⟨true, 9, some 1, some ⟨2, true, 3⟩, [⟨10, 4, 8⟩]⟩ (init 1)).mask = eDirty_None ∧
    (Compile ⟨true, 9, some 1, some ⟨2, true, 3⟩, [⟨10, 4, 8⟩]⟩ (init 1)).state.m_bCompiled
        = true :=
  compile_success_mask_none ⟨true, 9, some 1, some ⟨2, true, 3⟩, [⟨10, 4, 8⟩]⟩ (init 1)
    (fun _ => by decide) (fun _ => by decide)

/-- C10.  Every `Compile()` clears the asynchronous resources-invalidated
flag; on exit the compiled flag is true exactly when the returned mask is
`eDirty_None`; the returned mask is either `None` or the working entry mask
(old mask with the invalidation folded in); and if an invalidation was
pending on entry, a failing `Compile()` returns a mask containing the
`Resources` bit — the pending invalidation is folded in, not lost. -/
theorem compile_invalidation_fold (env : DeviceEnv) (s : PassState) :
    (Compile env s).state.m_bResourcesInvalidated = false ∧
    ((Compile env s).state.m_bCompiled = true ↔ (Compile env s).mask = eDirty_None) ∧
    ((Compile env s).mask = eDirty_None ∨ (Compile env s).mask = entryMask s) ∧
    (s.m_bResourcesInvalidated = true → (Compile env s).mask ≠ eDirty_None →
      (Compile env s).mask &&& eDirty_Resources = eDirty_Resources) := by
  obtain ⟨h1, h2⟩ := Compile_spec env s
  refine ⟨h1, ?_, ?_, ?_⟩
  · rcases h2 with h | h
    · exact ⟨fun _ => h.1, fun _ => h.2⟩
    · exact ⟨fun hc => absurd hc (by simp [h.2.2]), fun hm => absurd hm h.2.1⟩
  · rcases h2 with h | h
    · exact Or.inl h.1
    · exact Or.inr h.1
  · intro hb hne
    rcases h2 with h | h
    · exact absurd h.1 hne
    · rw [h.1]
      unfold entryMask
      rw [hb]
      simp only [if_true]
      exact or_and_self_right _ _

/-- C10 witness: a pass with a clean mask but a pending invalidation,
compiled against a failing `Update`, returns exactly the `Resources` bit. -/
theorem compile_invalidation_fold_witness :
    ({ init 0 with
        m_dirtyMask := eDirty_None
        m_bResourcesInvalidated := true } : PassState).m_bResourcesInvalidated = true ∧
    (Compile ⟨false, 9, none, none, []⟩
      { init 0 with
          m_dirtyMask := eDirty_None
          m_bResourcesInvalidated := true }).mask ≠ eDirty_None ∧
    (Compile ⟨false, 9, none, none, []⟩
      { init 0 with
          m_dirtyMask := eDirty_None
          m_bResourcesInvalidated := true }).mask &&& eDirty_Resources = eDirty_Resources := by
  refine ⟨by decide, by decide, ?_⟩
  exact (compile_invalidation_fold ⟨false, 9, none, none, []⟩
    { init 0 with m_dirtyMask := eDirty_None, m_bResourcesInvalidated := true }).2.2.2
    (by decide) (by decide)

/-- When the layout-creation step fails, the tail returns the working mask
with the layout member already overwritten by the null result, the PSO
member untouched, and exactly one more device call (the failed creation). -/
theorem compileTechLayout_layoutFail (env : DeviceEnv) (d : Nat) (s : PassState)
    (calls : List DeviceCall)
    (htl : d &&& (eDirty_Technique ||| eDirty_ResourceLayout) ≠ 0)
    (hlay : env.layoutResult = none) :
    (compileTechLayout env d s calls).mask = d ∧
    (compileTechLayout env d s calls).state.m_pResourceLayout = none ∧
    (compileTechLayout env d s calls).state.m_pPipelineState = s.m_pPipelineState ∧
    (compileTechLayout env d s calls).calls =
      calls ++ [DeviceCall.createResourceLayout (buildLayoutDesc (reflectedBufs env s))] := by
  unfold compileTechLayout
  rw [if_pos htl, if_pos hlay]
  exact ⟨rfl, rfl, rfl, rfl⟩

/-- When the PSO step fails (null or invalid PSO), the tail returns the
working mask with the layout member holding the newly created layout and
the PSO member holding the failed creation result. -/
theorem compileTechLayout_psoFail (env : DeviceEnv) (d : Nat) (s : PassState)
    (calls : List DeviceCall)
    (htl : d &&& (eDirty_Technique ||| eDirty_ResourceLayout) ≠ 0)
    (hlay : env.layoutResult ≠ none) (hpso : ¬ psoOk env) :
    (compileTechLayout env d s calls).mask = d ∧
    (compileTechLayout env d s calls).state.m_pResourceLayout = env.layoutResult ∧
    (compileTechLayout env d s calls).state.m_pPipelineState = env.psoResult := by
  unfold compileTechLayout
  rw [if_pos htl, if_neg hlay]
  unfold compilePso
  cases hps : env.psoResult with
  | none => exact ⟨rfl, rfl, rfl⟩
  | some pso =>
    have hv : pso.valid = false := by
      unfold psoOk at hpso
      rw [hps] at hpso
      cases hvv : pso.valid
      · rfl
      · exact absurd hvv hpso
    simp [hv]

/-- C1 counterexample: a pass holding a previously compiled resource layout
(`some 5`), dirty only in `ResourceLayout`, compiled against a device whose
layout creation returns null: `Compile` fails (non-`None` mask) yet the
previously compiled resource-layout member has been replaced by null — the
claim that every previously compiled artifact is left unchanged on failure
is false. -/
theorem compile_layout_failure_overwrites :
    (Compile ⟨true, 9, none, none, []⟩
      { init 0 with m_dirtyMask := eDirty_ResourceLayout, m_pResourceLayout := some 5 }).mask
      ≠ eDirty_None ∧
    (Compile ⟨true, 9, none, none, []⟩
      { init 0 with
          m_dirtyMask := eDirty_ResourceLayout
          m_pResourceLayout := some 5 }).state.m_pResourceLayout
      ≠ ({ init 0 with
          m_dirtyMask := eDirty_ResourceLayout
          m_pResourceLayout := some 5 } : PassState).m_pResourceLayout := by
  decide

/-- C1 (amended).  When `Compile()` fails at any step it returns
immediately without executing later steps and the implicated dirty bits
remain set (the returned mask is the whole working mask, and the compiled
flag stays false).  On resource-set `Update` failure nothing is
overwritten: the only device call is the failed `Update` and resource set,
resource layout and pipeline state are all unchanged.  On resource-layout
creation failure no PSO step runs and the pipeline state is unchanged, but
the layout member has already been overwritten with the null creation
result; on PSO creation failure the layout member holds the newly created
layout and the PSO member holds the null/invalid creation result. -/
theorem compile_failure_short_circuit (env : DeviceEnv) (s : PassState) :
    ((Compile env s).mask ≠ eDirty_None →
      (Compile env s).mask = entryMask s ∧ (Compile env s).state.m_bCompiled = false) ∧
    (entryMask s &&& eDirty_Resources ≠ 0 → env.updateSucceeds = false →
      (Compile env s).calls =
        [DeviceCall.updateResourceSet
          (entryMask s &&& (eDirty_Resources ||| eDirty_ResourceLayout))] ∧
      (Compile env s).state.m_pResourceSet = s.m_pResourceSet ∧
      (Compile env s).state.m_pResourceLayout = s.m_pResourceLayout ∧
      (Compile env s).state.m_pPipelineState = s.m_pPipelineState) ∧
    ((entryMask s &&& eDirty_Resources = 0 ∨ env.updateSucceeds = true) →
      entryMask s &&& (eDirty_Technique ||| eDirty_ResourceLayout) ≠ 0 →
      env.layoutResult = none →
      (Compile env s).mask = entryMask s ∧
      (Compile env s).state.m_pResourceLayout = none ∧
      (Compile env s).state.m_pPipelineState = s.m_pPipelineState ∧
      (∀ l sh rt, DeviceCall.createComputePSO l sh rt ∉ (Compile env s).calls)) ∧
    ((entryMask s &&& eDirty_Resources = 0 ∨ env.updateSucceeds = true) →
      entryMask s &&& (eDirty_Technique ||| eDirty_ResourceLayout) ≠ 0 →
      env.layoutResult ≠ none → ¬ psoOk env →
      (Compile env s).mask = entryMask s ∧
      (Compile env s).state.m_pResourceLayout = env.layoutResult ∧
      (Compile env s).state.m_pPipelineState = env.psoResult) := by
  refine ⟨?_, ?_, ?_, ?_⟩
  · intro hfail
    rcases (Compile_spec env s).2 with h | h
    · exact absurd h.1 hfail
    · exact ⟨h.1, h.2.2⟩
  · intro hres hupd
    unfold Compile
    rw [if_pos hres]
    simp only [hupd, Bool.false_eq_true, if_false]
    exact ⟨trivial, rfl, rfl, rfl⟩
  · intro hor htl hlay
    by_cases hres : entryMask s &&& eDirty_Resources ≠ 0
    · have hupd : env.updateSucceeds = true := by
        rcases hor with h0 | h1
        · exact absurd h0 hres
        · exact h1
      unfold Compile
      rw [if_pos hres]
      simp only [hupd, if_true]
      obtain ⟨h1, h2, h3, h4⟩ := compileTechLayout_layoutFail env (entryMask s)
        { compileEntry s with
            m_pResourceSet := (compileEntry s).m_pResourceSet.map fun _ => env.updatedSetContent }
        [DeviceCall.updateResourceSet
          (entryMask s &&& (eDirty_Resources ||| eDirty_ResourceLayout))] htl hlay
      refine ⟨h1, h2, h3, ?_⟩
      intro l sh rt hmem
      rw [h4] at hmem
      simp at hmem
    · unfold Compile
      rw [if_neg hres]
      obtain ⟨h1, h2, h3, h4⟩ :=
        compileTechLayout_layoutFail env (entryMask s) (compileEntry s) [] htl hlay
      refine ⟨h1, h2, h3, ?_⟩
      intro l sh rt hmem
      rw [h4] at hmem
      simp at hmem
  · intro hor htl hlay hpso
    by_cases hres : entryMask s &&& eDirty_Resources ≠ 0
    · have hupd : env.updateSucceeds = true := by
        rcases hor with h0 | h1
        · exact absurd h0 hres
        · exact h1
      unfold Compile
      rw [if_pos hres]
      simp only [hupd, if_true]
      exact compileTechLayout_psoFail env (entryMask s) _ _ htl hlay hpso
    · unfold Compile
      rw [if_neg hres]
      exact compileTechLayout_psoFail env (entryMask s) _ _ htl hlay hpso

/-- C1 (amended) witness: a freshly constructed pass whose resource-set
`Update` fails makes only that one device call and leaves all three
artifacts untouched. -/
theorem compile_failure_short_circuit_witness :
    (entryMask (init 0) &&& eDirty_Resources ≠ 0 ∧
      (⟨false, 9, some 1, none, []⟩ : DeviceEnv).updateSucceeds = false) ∧
    ((Compile ⟨false, 9, some 1, none, []⟩ (init 0)).calls =
        [DeviceCall.updateResourceSet
          (entryMask (init 0) &&& (eDirty_Resources ||| eDirty_ResourceLayout))] ∧
      (Compile ⟨false, 9, some 1, none, []⟩ (init 0)).state.m_pResourceSet
        = (init 0).m_pResourceSet ∧
      (Compile ⟨false, 9, some 1, none, []⟩ (init 0)).state.m_pResourceLayout
        = (init 0).m_pResourceLayout ∧
      (Compile ⟨false, 9, some 1, none, []⟩ (init 0)).state.m_pPipelineState
        = (init 0).m_pPipelineState) :=
  ⟨⟨by decide, by decide⟩,
   (compile_failure_short_circuit ⟨false, 9, some 1, none, []⟩ (init 0)).2.1
     (by decide) (by decide)⟩

/-- In every branch where the technique/layout step runs, the trace
contains the creation call for the layout description assembled from the
reflected buffers. -/
theorem compileTechLayout_createLayout_mem (env : DeviceEnv) (d : Nat) (s : PassState)
    (calls : List DeviceCall)
    (htl : d &&& (eDirty_Technique ||| eDirty_ResourceLayout) ≠ 0) :
    DeviceCall.createResourceLayout (buildLayoutDesc (reflectedBufs env s)) ∈
      (compileTechLayout env d s calls).calls := by
  unfold compileTechLayout
  rw [if_pos htl]
  by_cases hlay : env.layoutResult = none
  · rw [if_pos hlay]
    simp
  · rw [if_neg hlay]
    unfold compilePso
    cases env.psoResult with
    | none => simp
    | some pso => cases hv : pso.valid <;> simp [hv]

/-- The state returned by `PrepareResourcesForUse` is the branch-head
state, whichever branch was taken. -/
theorem PrepareResourcesForUse_state (env : DeviceEnv) (s : PassState) :
    (PrepareResourcesForUse env s).state = (prepareStep env s).1 := by
  unfold PrepareResourcesForUse
  split <;> rfl

/-- C5.  In `Compile()`, whenever the technique/layout step runs, the
resource-layout description it hands to the factory has the resource set
at bind slot 0 followed by one slot per reflected inline constant buffer,
in order, at slots 1, 2, …; and `PrepareResourcesForUse`, whenever the
dirty mask ends fully clear, issues the prepare calls at the same fixed
incrementing slots: the resource set at slot 0, then each inline constant
buffer, in declared order, at slots 1, 2, …. -/
theorem layout_and_prepare_slot_order (env : DeviceEnv) (s : PassState) :
    (entryMask s &&& (eDirty_Technique ||| eDirty_ResourceLayout) ≠ 0 →
      (entryMask s &&& eDirty_Resources = 0 ∨ env.updateSucceeds = true) →
      DeviceCall.createResourceLayout (buildLayoutDesc (reflectedBufs env s)) ∈
        (Compile env s).calls ∧
      (buildLayoutDesc (reflectedBufs env s)).get? 0 = some (LayoutSlot.resourceSet 0) ∧
      (∀ i, (buildLayoutDesc (reflectedBufs env s)).get? (i + 1) =
        ((reflectedBufs env s).get? i).map
          (fun cb => LayoutSlot.constantBuffer (i + 1) cb.shaderSlot cb.shaderStages))) ∧
    ((PrepareResourcesForUse env s).state.m_dirtyMask = eDirty_None →
      (PrepareResourcesForUse env s).cmds.get? 0 =
        some (BackendCmd.prepareResourceSet 0
          (PrepareResourcesForUse env s).state.m_pResourceSet) ∧
      (∀ i, (PrepareResourcesForUse env s).cmds.get? (i + 1) =
        ((PrepareResourcesForUse env s).state.m_constantBuffers.get? i).map
          (fun cb => BackendCmd.prepareInlineConstantBuffer (i + 1) cb.pBuffer cb.shaderSlot))) := by
  constructor
  · intro htl hor
    refine ⟨?_, rfl, ?_⟩
    · by_cases hres : entryMask s &&& eDirty_Resources ≠ 0
      · have hupd : env.updateSucceeds = true := by
          rcases hor with h0 | h1
          · exact absurd h0 hres
          · exact h1
        unfold Compile
        rw [if_pos hres]
        simp only [hupd, if_true]
        exact compileTechLayout_createLayout_mem env (entryMask s)
          { compileEntry s with
              m_pResourceSet := (compileEntry s).m_pResourceSet.map fun _ => env.updatedSetContent }
          _ htl
      · unfold Compile
        rw [if_neg hres]
        exact compileTechLayout_createLayout_mem env (entryMask s) (compileEntry s) [] htl
    · intro i
      have h := layoutDescCBs_get (reflectedBufs env s) 1 i
      rw [show (1 : Nat) + i = i + 1 from Nat.add_comm 1 i] at h
      exact h
  · intro hclean
    rw [PrepareResourcesForUse_state] at hclean
    unfold PrepareResourcesForUse
    rw [if_pos hclean]
    refine ⟨rfl, ?_⟩
    intro i
    have h := prepareCBs_get ((prepareStep env s).1.m_constantBuffers) 1 i
    rw [show (1 : Nat) + i = i + 1 from Nat.add_comm 1 i] at h
    exact h

/-- C5 witness: compiling a fresh reflecting pass against a device with one
reflected constant buffer yields the layout description
`[resourceSet 0, constantBuffer 1]`, and the subsequent prepare pass binds
the resource set at slot 0 and that buffer at slot 1. -/
theorem layout_and_prepare_slot_order_witness :
    (entryMask (init 1) &&& (eDirty_Technique ||| eDirty_ResourceLayout) ≠ 0 ∧
      (⟨true, 9, some 1, some ⟨2, true, 3⟩, [⟨10, 4, 8⟩]⟩ : DeviceEnv).updateSucceeds = true) ∧
    DeviceCall.createResourceLayout
        (buildLayoutDesc (reflectedBufs ⟨true, 9, some 1, some ⟨2, true, 3⟩, [⟨10, 4, 8⟩]⟩ (init 1))) ∈
      (Compile ⟨true, 9, some 1, some ⟨2, true, 3⟩, [⟨10, 4, 8⟩]⟩ (init 1)).calls ∧
    (PrepareResourcesForUse ⟨true, 9, some 1, some ⟨2, true, 3⟩, [⟨10, 4, 8⟩]⟩
        (init 1)).state.m_dirtyMask = eDirty_None ∧
    (PrepareResourcesForUse ⟨true, 9, some 1, some ⟨2, true, 3⟩, [⟨10, 4, 8⟩]⟩
        (init 1)).cmds.get? 1 =
      some (BackendCmd.prepareInlineConstantBuffer 1 10 4) := by
  refine ⟨⟨by decide, by decide⟩, ?_, by decide, ?_⟩
  · exact ((layout_and_prepare_slot_order ⟨true, 9, some 1, some ⟨2, true, 3⟩, [⟨10, 4, 8⟩]⟩
      (init 1)).1 (by decide) (Or.inr (by decide))).1
  · have h := ((layout_and_prepare_slot_order ⟨true, 9, some 1, some ⟨2, true, 3⟩, [⟨10, 4, 8⟩]⟩
      (init 1)).2 (by decide)).2 0
    rw [h]
    decide

theorem and_and_self (d a : Nat) : (d &&& a) &&& a = d &&& a := by
  apply Nat.eq_of_testBit_eq
  intro i
  simp only [Nat.testBit_and]
  cases d.testBit i <;> cases a.testBit i <;> simp

/-- A well-formed entry mask stays within the defined dirty bits. -/
theorem entryMask_wf {s : PassState} (hwf : maskWF s) :
    entryMask s &&& eDirty_All = entryMask s := by
  unfold entryMask
  apply or_and_wf hwf
  cases s.m_bResourcesInvalidated <;> decide

/-- The body of `Dispatch` writes no member: its state component is the input state. -/
theorem Dispatch_fst (s : PassState) : (Dispatch s).1 = s := by
  unfold Dispatch
  split <;> rfl

/-- The body of `Execute` writes no member either (scheduler hand-off or dispatch). -/
theorem Execute_fst (b : Bool) (s : PassState) : (Execute b s).1 = s := by
  unfold Execute
  split
  · rfl
  · exact Dispatch_fst s

theorem step_beginConstantUpdate (env : DeviceEnv) (s : PassState) :
    step (Op.beginConstantUpdate env) s = BeginConstantUpdate env s := rfl

theorem step_prepare (env : DeviceEnv) (s : PassState) :
    step (Op.prepare env) s = (PrepareResourcesForUse env s).state := rfl

theorem step_dispatch (s : PassState) : step Op.dispatch s = (Dispatch s).1 := rfl

theorem step_execute (b : Bool) (s : PassState) :
    step (Op.execute b) s = (Execute b s).1 := rfl

/-- The stored mask after `m_dirtyMask = Compile()` is the entry mask
(failure) or `eDirty_None` with the compiled flag set (success). -/
theorem CompileCall_mask_cases (env : DeviceEnv) (s : PassState) :
    (CompileCall env s).m_dirtyMask = entryMask s ∨
    ((CompileCall env s).m_dirtyMask = eDirty_None ∧
      (CompileCall env s).m_bCompiled = true) := by
  rcases (Compile_spec env s).2 with h | h
  · exact Or.inr ⟨h.1, h.2⟩
  · exact Or.inl h.1

/-- Storing `m_dirtyMask = Compile()` always clears the invalidation flag. -/
theorem CompileCall_invalidated (env : DeviceEnv) (s : PassState) :
    (CompileCall env s).m_bResourcesInvalidated = false :=
  (Compile_spec env s).1

/-- After `m_dirtyMask = Compile()` the invalidation invariant holds
vacuously (the flag is cleared). -/
theorem CompileCall_invInvalidated (env : DeviceEnv) (s : PassState) :
    invInvalidated (CompileCall env s) := by
  intro hb
  have hclr := CompileCall_invalidated env s
  rw [hclr] at hb
  exact Bool.noConfusion hb

/-- Storing `m_dirtyMask = Compile()` keeps the mask well-formed and never clears a
bit except by a fully successful compile. -/
theorem CompileCall_wf_mono (env : DeviceEnv) (s : PassState) (hwf : maskWF s) :
    maskWF (CompileCall env s) ∧
    (s.m_dirtyMask &&& (CompileCall env s).m_dirtyMask = s.m_dirtyMask ∨
      ((CompileCall env s).m_bCompiled = true ∧
        (CompileCall env s).m_dirtyMask = eDirty_None)) := by
  rcases CompileCall_mask_cases env s with h | h
  · constructor
    · unfold maskWF
      rw [h]
      exact entryMask_wf hwf
    · left
      rw [h]
      unfold entryMask
      exact and_or_self_left _ _
  · constructor
    · unfold maskWF
      rw [h.1]
      decide
    · exact Or.inr ⟨h.2, h.1⟩

/-- The invalidation invariant holds for a freshly constructed pass. -/
theorem invInvalidated_init (flags : Nat) : invInvalidated (init flags) := by
  intro hb
  simp [init] at hb

/-- The invalidation invariant is preserved by every lifetime operation:
the only source writer of `m_bResourcesInvalidated := true` is `Reset`,
which also sets the mask to `All`. -/
theorem invInvalidated_step (op : Op) (s : PassState) (h : invInvalidated s) :
    invInvalidated (step op s) := by
  cases op with
  | mutate delta =>
    intro hb
    exact and_eq_of_or_and_eq (h hb)
  | setDispatchSize x y z =>
    intro hb
    exact h hb
  | invalidate flags =>
    intro hb
    exact or_and_self_right _ _
  | reset =>
    intro hb
    show eDirty_All &&& eDirty_Resources = eDirty_Resources
    decide
  | beginConstantUpdate env =>
    rw [step_beginConstantUpdate]
    simp only [BeginConstantUpdate]
    by_cases hf : s.m_flags &&& eFlags_ReflectConstantBuffersFromShader ≠ 0
    · rw [if_pos hf]
      by_cases hd : IsDirty s = true
      · rw [if_pos hd]
        exact CompileCall_invInvalidated env s
      · rw [if_neg hd]
        exact h
    · rw [if_neg hf]
      exact h
  | prepare env =>
    rw [step_prepare, PrepareResourcesForUse_state]
    unfold prepareStep
    by_cases hp : s.m_bPendingConstantUpdate = true
    · rw [if_pos hp]
      exact h
    · rw [if_neg hp]
      by_cases hd : IsDirty s = true
      · rw [if_pos hd]
        exact CompileCall_invInvalidated env s
      · rw [if_neg hd]
        exact h
  | dispatch =>
    rw [step_dispatch, Dispatch_fst]
    exact h
  | execute b =>
    rw [step_execute, Execute_fst]
    exact h

/-- C8.  Along any sequence of lifetime operations (binding mutations,
invalidation callbacks, `Reset`, `BeginConstantUpdate`,
`PrepareResourcesForUse`, `Dispatch`, `Execute`) started from a state with
a well-formed mask, each step keeps the mask well-formed and never clears
a dirty bit — the old mask is a subset of the new one — except as the
direct result of a successful `Compile()` (new mask `eDirty_None`, compiled
flag true); and a binding mutation exactly ORs its delta into the mask. -/
theorem dirty_mask_monotone_step (s : PassState) (op : Op) (hwf : maskWF s) :
    maskWF (step op s) ∧
    (s.m_dirtyMask &&& (step op s).m_dirtyMask = s.m_dirtyMask ∨
      ((step op s).m_bCompiled = true ∧ (step op s).m_dirtyMask = eDirty_None)) ∧
    (∀ delta, op = Op.mutate delta →
      (step op s).m_dirtyMask = s.m_dirtyMask ||| (delta &&& eDirty_All)) := by
  cases op with
  | mutate delta =>
    refine ⟨or_and_wf hwf (and_and_self _ _), Or.inl (and_or_self_left _ _), ?_⟩
    intro d hd
    injection hd with h2
    subst h2
    rfl
  | setDispatchSize x y z =>
    exact ⟨hwf, Or.inl (Nat.and_self _), fun d hd => Op.noConfusion hd⟩
  | invalidate flags =>
    exact ⟨or_and_wf hwf (by decide), Or.inl (and_or_self_left _ _),
      fun d hd => Op.noConfusion hd⟩
  | reset =>
    refine ⟨?_, Or.inl hwf, fun d hd => Op.noConfusion hd⟩
    show eDirty_All &&& eDirty_All = eDirty_All
    decide
  | beginConstantUpdate env =>
    rw [step_beginConstantUpdate]
    simp only [BeginConstantUpdate]
    by_cases hf : s.m_flags &&& eFlags_ReflectConstantBuffersFromShader ≠ 0
    · rw [if_pos hf]
      by_cases hd : IsDirty s = true
      · rw [if_pos hd]
        obtain ⟨h1, h2⟩ := CompileCall_wf_mono env s hwf
        exact ⟨h1, h2, fun d hd2 => Op.noConfusion hd2⟩
      · rw [if_neg hd]
        exact ⟨hwf, Or.inl (Nat.and_self _), fun d hd2 => Op.noConfusion hd2⟩
    · rw [if_neg hf]
      exact ⟨hwf, Or.inl (Nat.and_self _), fun d hd2 => Op.noConfusion hd2⟩
  | prepare env =>
    rw [step_prepare, PrepareResourcesForUse_state]
    unfold prepareStep
    by_cases hp : s.m_bPendingConstantUpdate = true
    · rw [if_pos hp]
      exact ⟨hwf, Or.inl (Nat.and_self _), fun d hd => Op.noConfusion hd⟩
    · rw [if_neg hp]
      by_cases hd : IsDirty s = true
      · rw [if_pos hd]
        obtain ⟨h1, h2⟩ := CompileCall_wf_mono env s hwf
        exact ⟨h1, h2, fun d hd2 => Op.noConfusion hd2⟩
      · rw [if_neg hd]
        exact ⟨hwf, Or.inl (Nat.and_self _), fun d hd => Op.noConfusion hd⟩
  | dispatch =>
    rw [step_dispatch, Dispatch_fst]
    exact ⟨hwf, Or.inl (Nat.and_self _), fun d hd => Op.noConfusion hd⟩
  | execute b =>
    rw [step_execute, Execute_fst]
    exact ⟨hwf, Or.inl (Nat.and_self _), fun d hd => Op.noConfusion hd⟩

/-- C8 witness: a binding mutation on a fresh pass keeps the mask
well-formed, clears no bit, and ORs exactly its delta. -/
theorem dirty_mask_monotone_step_witness :
    maskWF (init 0) ∧
    (maskWF (step (Op.mutate eDirty_Technique) (init 0)) ∧
     ((init 0).m_dirtyMask &&&
          (step (Op.mutate eDirty_Technique) (init 0)).m_dirtyMask = (init 0).m_dirtyMask ∨
       ((step (Op.mutate eDirty_Technique) (init 0)).m_bCompiled = true ∧
        (step (Op.mutate eDirty_Technique) (init 0)).m_dirtyMask = eDirty_None)) ∧
     (∀ delta, Op.mutate eDirty_Technique = Op.mutate delta →
       (step (Op.mutate eDirty_Technique) (init 0)).m_dirtyMask
         = (init 0).m_dirtyMask ||| (delta &&& eDirty_All))) :=
  ⟨by decide, dirty_mask_monotone_step (init 0) (Op.mutate eDirty_Technique) (by decide)⟩

end ComputeRenderPass
